import Mathlib

/-!
Verification of the decentralized-identity system: a shallow embedding of the
`IdentityManager` Solidity contract (registry ledger), the WebAuthn ceremony
routes (challenge ledger, credential store), the session-token issuer and the
base64url codec, together with proofs of the specification's claims.

Addresses are modelled as natural numbers, `0` standing for `address(0)`.
Solidity `require(cond, msg)` is modelled by `Except String`: a failing
`require` yields `.error msg` (the revert message).
-/

/-- One identity record, mirroring `struct Identity` in `IdentityManager.sol`. -/
structure Identity where
  name : String
  email : String
  hashedAadhaar : String
  ethAddress : Nat
  registrationTime : Nat
  isActive : Bool
deriving DecidableEq, Repr

/-- The default value of a Solidity `Identity` storage slot (all fields zeroed). -/
def emptyIdentity : Identity :=
  { name := "", email := "", hashedAadhaar := "", ethAddress := 0,
    registrationTime := 0, isActive := false }

/-- The payload of the `IdentityRegistered` event. -/
structure RegEvent where
  userAddress : Nat
  name : String
  email : String
  timestamp : Nat
deriving DecidableEq, Repr

/-- Contract storage of `IdentityManager`: the three mappings, the enumeration
array, plus the emitted event log. -/
structure ContractState where
  identities : Nat → Identity
  emailExists : String → Bool
  aadhaarExists : String → Bool
  registeredUsers : List Nat
  eventLog : List RegEvent

/-- Freshly deployed contract: every mapping slot holds its default value. -/
def initialContractState : ContractState :=
  { identities := fun _ => emptyIdentity
    emailExists := fun _ => false
    aadhaarExists := fun _ => false
    registeredUsers := []
    eventLog := [] }

/-- `registerIdentity` from `IdentityManager.sol`, with `sender` for
`msg.sender` and `timestamp` for `block.timestamp`.  The `require` statements
are checked in source order; on success the identity is stored, the email and
Aadhaar hash are marked used, the sender is appended to `registeredUsers` and
an `IdentityRegistered` event is emitted. -/
def registerIdentity (s : ContractState) (sender : Nat)
    (name email hashedAadhaar : String) (timestamp : Nat) :
    Except String ContractState :=
  if name = "" then .error "Name cannot be empty"
  else if email = "" then .error "Email cannot be empty"
  else if hashedAadhaar = "" then .error "Hashed Aadhaar cannot be empty"
  else if (s.identities sender).isActive then .error "Identity already registered"
  else if s.emailExists email then .error "Email already registered"
  else if s.aadhaarExists hashedAadhaar then .error "Aadhaar already registered"
  else .ok
    { identities := fun a =>
        if a = sender then
          { name := name, email := email, hashedAadhaar := hashedAadhaar,
            ethAddress := sender, registrationTime := timestamp, isActive := true }
        else s.identities a
      emailExists := fun e => if e = email then true else s.emailExists e
      aadhaarExists := fun h => if h = hashedAadhaar then true else s.aadhaarExists h
      registeredUsers := s.registeredUsers ++ [sender]
      eventLog := s.eventLog ++ [⟨sender, name, email, timestamp⟩] }

/-- `getIdentity` from `IdentityManager.sol`: the `validAddress` modifier
rejects the zero address, then the record must be active. -/
def getIdentity (s : ContractState) (userAddress : Nat) :
    Except String (String × String × String × Nat × Nat × Bool) :=
  if userAddress = 0 then .error "Invalid address"
  else if (s.identities userAddress).isActive then
    let identity := s.identities userAddress
    .ok (identity.name, identity.email, identity.hashedAadhaar,
         identity.ethAddress, identity.registrationTime, identity.isActive)
  else .error "Identity not found or inactive"

/-- `isRegistered` from `IdentityManager.sol`: note that the `validAddress`
modifier runs before the body, so the zero address reverts. -/
def isRegistered (s : ContractState) (userAddress : Nat) : Except String Bool :=
  if userAddress = 0 then .error "Invalid address"
  else .ok (s.identities userAddress).isActive

/-- The states the contract can reach from deployment: the only mutating entry
point is `registerIdentity`. -/
inductive Reachable : ContractState → Prop
  | init : Reachable initialContractState
  | step {s s' : ContractState} {sender : Nat} {name email hashedAadhaar : String}
      {timestamp : Nat} :
      Reachable s →
      registerIdentity s sender name email hashedAadhaar timestamp = .ok s' →
      Reachable s'

/-- Some active record holds this email. -/
def ActiveEmail (s : ContractState) (e : String) : Prop :=
  ∃ a, (s.identities a).isActive = true ∧ (s.identities a).email = e

/-- Some active record holds this Aadhaar hash. -/
def ActiveAadhaar (s : ContractState) (h : String) : Prop :=
  ∃ a, (s.identities a).isActive = true ∧ (s.identities a).hashedAadhaar = h

/-- Inductive invariant of the registry: active records have pairwise distinct
emails and Aadhaar hashes, and the `emailExists` / `aadhaarExists` mappings
hold exactly the emails / hashes of active records. -/
def RegistryInv (s : ContractState) : Prop :=
  (∀ a b, (s.identities a).isActive = true → (s.identities b).isActive = true →
    ((s.identities a).email = (s.identities b).email → a = b) ∧
    ((s.identities a).hashedAadhaar = (s.identities b).hashedAadhaar → a = b)) ∧
  (∀ e, s.emailExists e = true ↔ ActiveEmail s e) ∧
  (∀ h, s.aadhaarExists h = true ↔ ActiveAadhaar s h)

theorem registryInv_initial : RegistryInv initialContractState := by
  refine ⟨fun a b ha _ => ?_, fun e => ?_, fun h => ?_⟩
  · simp [initialContractState, emptyIdentity] at ha
  · simp [initialContractState, ActiveEmail, emptyIdentity]
  · simp [initialContractState, ActiveAadhaar, emptyIdentity]

theorem registryInv_step {s s' : ContractState} {sender : Nat}
    {name email hashedAadhaar : String} {timestamp : Nat}
    (hinv : RegistryInv s)
    (hreg : registerIdentity s sender name email hashedAadhaar timestamp = .ok s') :
    RegistryInv s' := by
  obtain ⟨huniq, hem, had⟩ := hinv
  unfold registerIdentity at hreg
  split at hreg; · exact absurd hreg (by simp)
  split at hreg; · exact absurd hreg (by simp)
  split at hreg; · exact absurd hreg (by simp)
  split at hreg; · exact absurd hreg (by simp)
  split at hreg; · exact absurd hreg (by simp)
  split at hreg; · exact absurd hreg (by simp)
  rename_i hact hemail haad
  rw [Bool.not_eq_true] at hact hemail haad
  injection hreg with hreg
  subst hreg
  have hnoEmail : ¬ ActiveEmail s email := fun hx => by
    have h1 := (hem email).mpr hx
    exact absurd (h1.symm.trans hemail) (by decide)
  have hnoAad : ¬ ActiveAadhaar s hashedAadhaar := fun hx => by
    have h1 := (had hashedAadhaar).mpr hx
    exact absurd (h1.symm.trans haad) (by decide)
  refine ⟨fun a b ha hb => ?_, fun e => ?_, fun h => ?_⟩
  · dsimp only at ha hb ⊢
    by_cases hA : a = sender
    · by_cases hB : b = sender
      · exact ⟨fun _ => hA.trans hB.symm, fun _ => hA.trans hB.symm⟩
      · rw [if_neg hB] at hb
        rw [if_pos hA, if_neg hB]
        constructor
        · intro hEq
          exact absurd ⟨b, hb, hEq.symm⟩ hnoEmail
        · intro hEq
          exact absurd ⟨b, hb, hEq.symm⟩ hnoAad
    · by_cases hB : b = sender
      · rw [if_neg hA] at ha
        rw [if_neg hA, if_pos hB]
        constructor
        · intro hEq
          exact absurd ⟨a, ha, hEq⟩ hnoEmail
        · intro hEq
          exact absurd ⟨a, ha, hEq⟩ hnoAad
      · rw [if_neg hA] at ha
        rw [if_neg hB] at hb
        rw [if_neg hA, if_neg hB]
        exact huniq a b ha hb
  · simp only [ActiveEmail]
    by_cases he : e = email
    · rw [if_pos he]
      constructor
      · intro _
        exact ⟨sender, by simp [he]⟩
      · intro _
        rfl
    · rw [if_neg he]
      constructor
      · intro hx
        obtain ⟨a, ha, hae⟩ := (hem e).mp hx
        have hA : a ≠ sender := by
          intro hc
          rw [hc] at ha
          rw [hact] at ha
          exact absurd ha (by decide)
        exact ⟨a, by rw [if_neg hA]; exact ha, by rw [if_neg hA]; exact hae⟩
      · rintro ⟨a, ha, hae⟩
        by_cases hA : a = sender
        · rw [if_pos hA] at hae
          exact absurd hae.symm he
        · rw [if_neg hA] at ha hae
          exact (hem e).mpr ⟨a, ha, hae⟩
  · simp only [ActiveAadhaar]
    by_cases he : h = hashedAadhaar
    · rw [if_pos he]
      constructor
      · intro _
        exact ⟨sender, by simp [he]⟩
      · intro _
        rfl
    · rw [if_neg he]
      constructor
      · intro hx
        obtain ⟨a, ha, hae⟩ := (had h).mp hx
        have hA : a ≠ sender := by
          intro hc
          rw [hc] at ha
          rw [hact] at ha
          exact absurd ha (by decide)
        exact ⟨a, by rw [if_neg hA]; exact ha, by rw [if_neg hA]; exact hae⟩
      · rintro ⟨a, ha, hae⟩
        by_cases hA : a = sender
        · rw [if_pos hA] at hae
          exact absurd hae.symm he
        · rw [if_neg hA] at ha hae
          exact (had h).mpr ⟨a, ha, hae⟩

theorem registryInv_reachable {s : ContractState} (h : Reachable s) : RegistryInv s := by
  induction h with
  | init => exact registryInv_initial
  | step _ hreg ih => exact registryInv_step ih hreg

/-- C1: across any sequence of registration attempts, at most one active record
holds a given email and at most one holds a given Aadhaar hash; whenever
`registerIdentity` succeeds, its email and hash were not previously marked used
and the success marks them used. -/
theorem c1_registry_uniqueness (s : ContractState) (hs : Reachable s) :
    (∀ a b, (s.identities a).isActive = true → (s.identities b).isActive = true →
      ((s.identities a).email = (s.identities b).email → a = b) ∧
      ((s.identities a).hashedAadhaar = (s.identities b).hashedAadhaar → a = b)) ∧
    (∀ sender name email hashedAadhaar timestamp s',
      registerIdentity s sender name email hashedAadhaar timestamp = .ok s' →
      s.emailExists email = false ∧ s.aadhaarExists hashedAadhaar = false ∧
      s'.emailExists email = true ∧ s'.aadhaarExists hashedAadhaar = true) := by
  obtain ⟨huniq, _, _⟩ := registryInv_reachable hs
  refine ⟨huniq, ?_⟩
  intro sender name email hashedAadhaar timestamp s' hreg
  unfold registerIdentity at hreg
  split at hreg; · exact absurd hreg (by simp)
  split at hreg; · exact absurd hreg (by simp)
  split at hreg; · exact absurd hreg (by simp)
  split at hreg; · exact absurd hreg (by simp)
  split at hreg; · exact absurd hreg (by simp)
  split at hreg; · exact absurd hreg (by simp)
  rename_i hact hemail haad
  rw [Bool.not_eq_true] at hemail haad
  injection hreg with h
  subst h
  exact ⟨hemail, haad, by simp, by simp⟩

theorem c1_registry_uniqueness_witness :
    (∀ a b, (initialContractState.identities a).isActive = true →
      (initialContractState.identities b).isActive = true →
      ((initialContractState.identities a).email =
          (initialContractState.identities b).email → a = b) ∧
      ((initialContractState.identities a).hashedAadhaar =
          (initialContractState.identities b).hashedAadhaar → a = b)) ∧
    (∀ sender name email hashedAadhaar timestamp s',
      registerIdentity initialContractState sender name email hashedAadhaar timestamp = .ok s' →
      initialContractState.emailExists email = false ∧
      initialContractState.aadhaarExists hashedAadhaar = false ∧
      s'.emailExists email = true ∧ s'.aadhaarExists hashedAadhaar = true) :=
  c1_registry_uniqueness initialContractState Reachable.init

/-- C4: `registerIdentity` fails with the empty-field messages when a field is
empty, with "Identity already registered" when the caller already holds an
active record, with "Email already registered" when an active record holds the
email, with "Aadhaar already registered" when an active record holds the hash,
and otherwise succeeds, storing the record and emitting exactly one
`IdentityRegistered` event `(owner, name, email, timestamp)`. -/
theorem c4_register_error_cases (s : ContractState) (hs : Reachable s)
    (sender : Nat) (name email hashedAadhaar : String) (timestamp : Nat) :
    (name = "" →
      registerIdentity s sender name email hashedAadhaar timestamp =
        .error "Name cannot be empty") ∧
    (name ≠ "" → email = "" →
      registerIdentity s sender name email hashedAadhaar timestamp =
        .error "Email cannot be empty") ∧
    (name ≠ "" → email ≠ "" → hashedAadhaar = "" →
      registerIdentity s sender name email hashedAadhaar timestamp =
        .error "Hashed Aadhaar cannot be empty") ∧
    (name ≠ "" → email ≠ "" → hashedAadhaar ≠ "" →
      (s.identities sender).isActive = true →
      registerIdentity s sender name email hashedAadhaar timestamp =
        .error "Identity already registered") ∧
    (name ≠ "" → email ≠ "" → hashedAadhaar ≠ "" →
      (s.identities sender).isActive = false → ActiveEmail s email →
      registerIdentity s sender name email hashedAadhaar timestamp =
        .error "Email already registered") ∧
    (name ≠ "" → email ≠ "" → hashedAadhaar ≠ "" →
      (s.identities sender).isActive = false → ¬ ActiveEmail s email →
      ActiveAadhaar s hashedAadhaar →
      registerIdentity s sender name email hashedAadhaar timestamp =
        .error "Aadhaar already registered") ∧
    (name ≠ "" → email ≠ "" → hashedAadhaar ≠ "" →
      (s.identities sender).isActive = false → ¬ ActiveEmail s email →
      ¬ ActiveAadhaar s hashedAadhaar →
      ∃ s', registerIdentity s sender name email hashedAadhaar timestamp = .ok s' ∧
        s'.identities sender =
          { name := name, email := email, hashedAadhaar := hashedAadhaar,
            ethAddress := sender, registrationTime := timestamp, isActive := true } ∧
        s'.eventLog = s.eventLog ++ [⟨sender, name, email, timestamp⟩]) := by
  obtain ⟨_, hem, had⟩ := registryInv_reachable hs
  refine ⟨?_, ?_, ?_, ?_, ?_, ?_, ?_⟩
  · intro h1
    unfold registerIdentity
    simp [h1]
  · intro h1 h2
    unfold registerIdentity
    simp [h1, h2]
  · intro h1 h2 h3
    unfold registerIdentity
    simp [h1, h2, h3]
  · intro h1 h2 h3 h4
    unfold registerIdentity
    simp [h1, h2, h3, h4]
  · intro h1 h2 h3 h4 h5
    have he : s.emailExists email = true := (hem email).mpr h5
    unfold registerIdentity
    simp [h1, h2, h3, h4, he]
  · intro h1 h2 h3 h4 h5 h6
    have he : s.emailExists email = false := by
      rw [← Bool.not_eq_true]
      exact fun hx => h5 ((hem email).mp hx)
    have ha : s.aadhaarExists hashedAadhaar = true := (had hashedAadhaar).mpr h6
    unfold registerIdentity
    simp [h1, h2, h3, h4, he, ha]
  · intro h1 h2 h3 h4 h5 h6
    have he : s.emailExists email = false := by
      rw [← Bool.not_eq_true]
      exact fun hx => h5 ((hem email).mp hx)
    have ha : s.aadhaarExists hashedAadhaar = false := by
      rw [← Bool.not_eq_true]
      exact fun hx => h6 ((had hashedAadhaar).mp hx)
    unfold registerIdentity
    rw [if_neg h1, if_neg h2, if_neg h3, h4, if_neg (by decide : ¬ (false = true)),
        he, if_neg (by decide : ¬ (false = true)),
        ha, if_neg (by decide : ¬ (false = true))]
    exact ⟨_, rfl, by simp, rfl⟩

theorem c4_register_error_cases_witness :
    registerIdentity initialContractState 1 "" "a@x.com" "h1" 10 =
      .error "Name cannot be empty" ∧
    (∃ s', registerIdentity initialContractState 1 "Alice" "a@x.com" "h1" 10 = .ok s' ∧
      s'.identities 1 =
        { name := "Alice", email := "a@x.com", hashedAadhaar := "h1",
          ethAddress := 1, registrationTime := 10, isActive := true } ∧
      s'.eventLog = initialContractState.eventLog ++ [⟨1, "Alice", "a@x.com", 10⟩]) := by
  have hne : ¬ ActiveEmail initialContractState "a@x.com" := by
    rintro ⟨a, ha, -⟩
    simp [initialContractState, emptyIdentity] at ha
  have hna : ¬ ActiveAadhaar initialContractState "h1" := by
    rintro ⟨a, ha, -⟩
    simp [initialContractState, emptyIdentity] at ha
  exact ⟨(c4_register_error_cases initialContractState Reachable.init
            1 "" "a@x.com" "h1" 10).1 rfl,
         (c4_register_error_cases initialContractState Reachable.init
            1 "Alice" "a@x.com" "h1" 10).2.2.2.2.2.2
            (by decide) (by decide) (by decide) rfl hne hna⟩

/-- C5: after a successful `registerIdentity`, `getIdentity` for that sender
returns exactly the registered fields with `isActive = true`, and
`isRegistered` returns `true` (the sender address is nonzero, as `msg.sender`
always is on the EVM). -/
theorem c5_register_then_get (s s' : ContractState) (sender : Nat)
    (name email hashedAadhaar : String) (timestamp : Nat)
    (hsender : sender ≠ 0)
    (hreg : registerIdentity s sender name email hashedAadhaar timestamp = .ok s') :
    getIdentity s' sender = .ok (name, email, hashedAadhaar, sender, timestamp, true) ∧
    isRegistered s' sender = .ok true := by
  unfold registerIdentity at hreg
  split at hreg; · exact absurd hreg (by simp)
  split at hreg; · exact absurd hreg (by simp)
  split at hreg; · exact absurd hreg (by simp)
  split at hreg; · exact absurd hreg (by simp)
  split at hreg; · exact absurd hreg (by simp)
  split at hreg; · exact absurd hreg (by simp)
  injection hreg with h
  subst h
  unfold getIdentity isRegistered
  rw [if_neg hsender, if_neg hsender]
  simp

/-- The state reached by registering Alice from a fresh deployment. -/
def c5State : ContractState :=
  { identities := fun a =>
      if a = 1 then
        { name := "Alice", email := "a@x.com", hashedAadhaar := "h1",
          ethAddress := 1, registrationTime := 10, isActive := true }
      else emptyIdentity
    emailExists := fun e => if e = "a@x.com" then true else false
    aadhaarExists := fun h => if h = "h1" then true else false
    registeredUsers := [1]
    eventLog := [⟨1, "Alice", "a@x.com", 10⟩] }

theorem c5_register_then_get_witness :
    getIdentity c5State 1 = .ok ("Alice", "a@x.com", "h1", 1, 10, true) ∧
    isRegistered c5State 1 = .ok true :=
  c5_register_then_get initialContractState c5State 1 "Alice" "a@x.com" "h1" 10
    (by decide) rfl

/-- C8 counterexample: the claim says `exists` never fails, for every input
address including the zero address, but `isRegistered` carries the
`validAddress` modifier and reverts with "Invalid address" at `address(0)`. -/
theorem c8_exists_zero_address_reverts :
    isRegistered initialContractState 0 = .error "Invalid address" := rfl

/-- C8 (amended): for every nonzero address `isRegistered` returns, without
error, whether an active record exists for that address; for the zero address
it reverts with "Invalid address". -/
theorem c8_exists_amended (s : ContractState) (addr : Nat) :
    (addr ≠ 0 → isRegistered s addr = .ok (s.identities addr).isActive) ∧
    isRegistered s 0 = .error "Invalid address" := by
  constructor
  · intro h
    unfold isRegistered
    rw [if_neg h]
  · rfl

theorem c8_exists_amended_witness :
    isRegistered initialContractState 1 = .ok false ∧
    isRegistered initialContractState 0 = .error "Invalid address" :=
  ⟨(c8_exists_amended initialContractState 1).1 (by decide),
   (c8_exists_amended initialContractState 0).2⟩

/-! ## Session issuer (JWT)

The route signs tokens with `jwt.sign(payload, JWT_SECRET, { expiresIn: '24h' })`
and checks them with `jwt.verify(token, JWT_SECRET)`.
-/

/-- The JWT payload built by `POST /api/auth/login/complete`. -/
structure SessionClaims where
  email : String
  name : String
  authenticatedAt : Nat
  authMethod : String
deriving DecidableEq, Repr

/-- Modelled from the spec: the `jsonwebtoken` library is an external
dependency whose code is not in the repository.  Its HMAC signature is
idealised as the exact data it authenticates: the signing secret together with
the signed claims and expiry.  A signature check succeeds exactly when the
token's signature was produced over this token's payload with this secret. -/
structure TokenSignature where
  secret : String
  signedClaims : SessionClaims
  signedExp : Nat
deriving DecidableEq, Repr

/-- Modelled from the spec: a signed session token with embedded claims and
expiry. -/
structure SessionToken where
  claims : SessionClaims
  exp : Nat
  sig : TokenSignature
deriving DecidableEq, Repr

/-- 24 hours in milliseconds (`expiresIn: '24h'`). -/
def sessionTTL : Nat := 24 * 60 * 60 * 1000

/-- Modelled from the spec: `issue` produces a signed token with a fixed
24-hour expiry from issuance. -/
def jwtSign (secret : String) (claims : SessionClaims) (now : Nat) : SessionToken :=
  { claims := claims, exp := now + sessionTTL,
    sig := ⟨secret, claims, now + sessionTTL⟩ }

inductive TokenVerifyResult where
  | valid (claims : SessionClaims)
  | invalidToken
  | expired
deriving DecidableEq, Repr

/-- Modelled from the spec: `verify` fails with `InvalidToken` on a bad
signature or malformed structure, fails with `Expired` once past expiry, and
otherwise returns the embedded claims. -/
def jwtVerify (secret : String) (t : SessionToken) (now : Nat) : TokenVerifyResult :=
  if t.sig ≠ ⟨secret, t.claims, t.exp⟩ then .invalidToken
  else if t.exp ≤ now then .expired
  else .valid t.claims

/-! ## WebAuthn utilities (`webauthn-utils.js`) and auth routes

The `challenges` map and the `localStorage` credential store live in the auth
router module; challenge values and `Date.now()` are passed in explicitly
(injected randomness / clock).
-/

/-- One pending entry of the `challenges` map.  Registration challenges store
`{challenge, email, name, expires}`; authentication challenges omit `name`. -/
structure ChallengeData where
  challenge : String
  email : String
  name : Option String
  expires : Nat
deriving DecidableEq, Repr

/-- The credential record persisted under `webauthn_${email}`. -/
structure StoredCredential where
  credentialId : String
  publicKey : String
  counter : Nat
  email : String
  name : String
  registeredAt : Nat
deriving DecidableEq, Repr

/-- The parsed `clientDataJSON` of a client credential response; the handler
reads only its `challenge` and `origin` fields. -/
structure ClientData where
  challenge : String
  origin : String
deriving DecidableEq, Repr

/-- A client credential response.  `assertedCounter` stands for the
authenticator data (including any client-asserted signature counter) present
in the wire format that the server code never reads. -/
structure CredentialResponse where
  clientDataJSON : ClientData
  attestationObject : String
  assertedCounter : Nat
deriving DecidableEq, Repr

/-- The credential object posted by the client; `response` is `none` when the
field is absent, and an absent/empty `id` is falsy in the source's check. -/
structure ClientCredential where
  id : String
  response : Option CredentialResponse
deriving DecidableEq, Repr

/-- The data returned by a successful `verifyRegistrationCredential`. -/
structure RegVerification where
  credentialId : String
  publicKey : String
  counter : Nat
deriving DecidableEq, Repr

/-- `verifyRegistrationCredential` from `webauthn-utils.js`: checks presence of
`id` and `response`, then challenge equality, then origin equality; on success
returns the credential id, the attestation object as public key, and
`counter = 0`.  Any failure is reported via the `{verified: false, error}`
branch, here `.error`. -/
def verifyRegistrationCredential (origin : String) (credential : ClientCredential)
    (expectedChallenge : String) : Except String RegVerification :=
  if credential.id = "" then .error "Invalid credential format"
  else match credential.response with
  | none => .error "Invalid credential format"
  | some resp =>
    if resp.clientDataJSON.challenge ≠ expectedChallenge then .error "Challenge mismatch"
    else if resp.clientDataJSON.origin ≠ origin then .error "Origin mismatch"
    else .ok ⟨credential.id, resp.attestationObject, 0⟩

/-- `verifyAuthenticationCredential` from `webauthn-utils.js`: checks presence,
then that the credential id equals the stored one, then challenge and origin
equality; on success returns `storedCredential.counter + 1` as the new
counter. -/
def verifyAuthenticationCredential (origin : String) (credential : ClientCredential)
    (expectedChallenge : String) (storedCredential : StoredCredential) :
    Except String Nat :=
  if credential.id = "" then .error "Invalid credential format"
  else match credential.response with
  | none => .error "Invalid credential format"
  | some resp =>
    if credential.id ≠ storedCredential.credentialId then .error "Credential ID mismatch"
    else if resp.clientDataJSON.challenge ≠ expectedChallenge then .error "Challenge mismatch"
    else if resp.clientDataJSON.origin ≠ origin then .error "Origin mismatch"
    else .ok (storedCredential.counter + 1)

/-- The auth router's mutable module state: the `challenges` map and the
`localStorage`-backed credential store keyed by email. -/
structure AuthState where
  challenges : String → Option ChallengeData
  creds : String → Option StoredCredential

def initialAuthState : AuthState :=
  { challenges := fun _ => none, creds := fun _ => none }

def setChallenge (m : String → Option ChallengeData) (k : String)
    (v : ChallengeData) : String → Option ChallengeData :=
  fun x => if x = k then some v else m x

def deleteChallenge (m : String → Option ChallengeData) (k : String) :
    String → Option ChallengeData :=
  fun x => if x = k then none else m x

def setCred (m : String → Option StoredCredential) (k : String)
    (v : StoredCredential) : String → Option StoredCredential :=
  fun x => if x = k then some v else m x

/-- `cleanupExpiredChallenges`: drops every entry whose expiry has passed. -/
def cleanupExpiredChallenges (m : String → Option ChallengeData) (now : Nat) :
    String → Option ChallengeData :=
  fun k => match m k with
  | some d => if d.expires < now then none else some d
  | none => none

/-- A character admitted by `[^\s@]` in the email regex. -/
def emailChar (c : Char) : Bool := !(c.isWhitespace || c = '@')

/-- The route's email check `/^[^\s@]+@[^\s@]+\.[^\s@]+$/`: exactly one `@`,
a nonempty local part, and a domain that decomposes around some `.` into two
nonempty runs of `[^\s@]` characters. -/
def matchesEmailRegex (s : String) : Bool :=
  match s.data.splitOn '@' with
  | [localPart, domain] =>
    !localPart.isEmpty && localPart.all emailChar && domain.all emailChar &&
      ((domain.drop 1).dropLast.contains '.')
  | _ => false

/-- Challenge TTL: 5 minutes in milliseconds. -/
def challengeTTL : Nat := 5 * 60 * 1000

/-- The challenge key minted by `POST /api/auth/register/begin`:
``challenge_${email}_${Date.now()}``. -/
def regChallengeKey (email : String) (now : Nat) : String :=
  "challenge_" ++ email ++ "_" ++ toString now

/-- The challenge key minted by `POST /api/auth/login/begin`:
``auth_challenge_${email}_${Date.now()}``. -/
def authChallengeKey (email : String) (now : Nat) : String :=
  "auth_challenge_" ++ email ++ "_" ++ toString now

inductive BeginResult where
  | missingFields
  | invalidEmail
  | duplicateCredential
  | noCredentials
  | issued (challengeKey : String) (challenge : String)
deriving DecidableEq, Repr

/-- `POST /api/auth/register/begin`: validates inputs, rejects an email that
already holds a credential, then stores a pending challenge under
`regChallengeKey email now` expiring in five minutes.  `challengeBytes` is the
injected `crypto.randomBytes(32).toString('base64url')` value. -/
def registerBegin (s : AuthState) (email name : String) (challengeBytes : String)
    (now : Nat) : BeginResult × AuthState :=
  if email = "" ∨ name = "" then (.missingFields, s)
  else if ¬ matchesEmailRegex email then (.invalidEmail, s)
  else match s.creds email with
  | some _ => (.duplicateCredential, s)
  | none =>
    let challengeKey := regChallengeKey email now
    (.issued challengeKey challengeBytes,
     { s with challenges :=
         (setChallenge s.challenges challengeKey
           ⟨challengeBytes, email, some name, now + challengeTTL⟩) })

/-- `POST /api/auth/login/begin`: validates the email, requires a stored
credential, then stores a pending challenge under `authChallengeKey email now`
expiring in five minutes. -/
def loginBegin (s : AuthState) (email : String) (challengeBytes : String)
    (now : Nat) : BeginResult × AuthState :=
  if email = "" then (.missingFields, s)
  else if ¬ matchesEmailRegex email then (.invalidEmail, s)
  else match s.creds email with
  | none => (.noCredentials, s)
  | some _ =>
    let challengeKey := authChallengeKey email now
    (.issued challengeKey challengeBytes,
     { s with challenges :=
         (setChallenge s.challenges challengeKey
           ⟨challengeBytes, email, none, now + challengeTTL⟩) })

inductive CompleteResult where
  | missingFields
  | invalidChallenge
  | challengeExpired
  | verifyFailed (msg : String)
  | storedCredentialMissing
  | registered
  | authenticated (token : SessionToken)
deriving DecidableEq, Repr

/-- `POST /api/auth/register/complete`: looks up the challenge (`none` yields
"Invalid or expired challenge"), deletes it if expired, verifies the
credential (deleting the challenge on failure), and on success stores the
credential record and deletes the challenge. -/
def registerComplete (origin : String) (s : AuthState)
    (credential? : Option ClientCredential) (challengeKey : String) (now : Nat) :
    CompleteResult × AuthState :=
  match credential? with
  | none => (.missingFields, s)
  | some credential =>
    if challengeKey = "" then (.missingFields, s)
    else match s.challenges challengeKey with
    | none => (.invalidChallenge, s)
    | some challengeData =>
      if challengeData.expires < now then
        (.challengeExpired, { s with challenges := deleteChallenge s.challenges challengeKey })
      else match verifyRegistrationCredential origin credential challengeData.challenge with
      | .error msg =>
        (.verifyFailed msg, { s with challenges := deleteChallenge s.challenges challengeKey })
      | .ok v =>
        let credentialData : StoredCredential :=
          ⟨v.credentialId, v.publicKey, v.counter,
           challengeData.email, challengeData.name.getD "", now⟩
        (.registered,
         { challenges := deleteChallenge s.challenges challengeKey,
           creds := setCred s.creds challengeData.email credentialData })

/-- `POST /api/auth/login/complete`: looks up the challenge, deletes it if
expired, requires the stored credential (deleting the challenge if absent),
verifies the authentication credential (deleting the challenge on failure);
on success updates the stored counter to the verifier's value, signs a JWT
over `(email, name, authenticatedAt, authMethod)`, and deletes the
challenge. -/
def loginComplete (secret origin : String) (s : AuthState)
    (credential? : Option ClientCredential) (challengeKey : String) (now : Nat) :
    CompleteResult × AuthState :=
  match credential? with
  | none => (.missingFields, s)
  | some credential =>
    if challengeKey = "" then (.missingFields, s)
    else match s.challenges challengeKey with
    | none => (.invalidChallenge, s)
    | some challengeData =>
      if challengeData.expires < now then
        (.challengeExpired, { s with challenges := deleteChallenge s.challenges challengeKey })
      else match s.creds challengeData.email with
      | none =>
        (.storedCredentialMissing,
         { s with challenges := deleteChallenge s.challenges challengeKey })
      | some storedCredential =>
        match verifyAuthenticationCredential origin credential
            challengeData.challenge storedCredential with
        | .error msg =>
          (.verifyFailed msg, { s with challenges := deleteChallenge s.challenges challengeKey })
        | .ok newCounter =>
          let updated := { storedCredential with counter := newCounter }
          let token := jwtSign secret
            ⟨challengeData.email, storedCredential.name, now, "webauthn"⟩ now
          (.authenticated token,
           { challenges := deleteChallenge s.challenges challengeKey,
             creds := setCred s.creds challengeData.email updated })

/-- After a `register/complete` call that found the challenge, the entry is
gone, whatever the outcome. -/
theorem registerComplete_consumes {origin : String} {s : AuthState}
    {credential : ClientCredential} {challengeKey : String} {now : Nat}
    {cd : ChallengeData}
    (hfound : s.challenges challengeKey = some cd) (hkey : challengeKey ≠ "") :
    ((registerComplete origin s (some credential) challengeKey now).2).challenges
      challengeKey = none := by
  simp only [registerComplete, if_neg hkey, hfound]
  by_cases hexp : cd.expires < now
  · rw [if_pos hexp]
    simp [deleteChallenge]
  · rw [if_neg hexp]
    cases hv : verifyRegistrationCredential origin credential cd.challenge with
    | error msg => simp [deleteChallenge]
    | ok v => simp [deleteChallenge]

/-- After a `login/complete` call that found the challenge, the entry is gone,
whatever the outcome. -/
theorem loginComplete_consumes {secret origin : String} {s : AuthState}
    {credential : ClientCredential} {challengeKey : String} {now : Nat}
    {cd : ChallengeData}
    (hfound : s.challenges challengeKey = some cd) (hkey : challengeKey ≠ "") :
    ((loginComplete secret origin s (some credential) challengeKey now).2).challenges
      challengeKey = none := by
  simp only [loginComplete, if_neg hkey, hfound]
  by_cases hexp : cd.expires < now
  · rw [if_pos hexp]
    simp [deleteChallenge]
  · rw [if_neg hexp]
    cases hc : s.creds cd.email with
    | none => simp [deleteChallenge]
    | some stored =>
      cases hv : verifyAuthenticationCredential origin credential cd.challenge stored with
      | error msg => simp [hv, deleteChallenge]
      | ok n => simp [hv, deleteChallenge]

/-- A `register/complete` call on an absent key reports the invalid-challenge
error. -/
theorem registerComplete_notFound {origin : String} {s : AuthState}
    {credential : ClientCredential} {challengeKey : String} {now : Nat}
    (habsent : s.challenges challengeKey = none) (hkey : challengeKey ≠ "") :
    (registerComplete origin s (some credential) challengeKey now).1 =
      .invalidChallenge := by
  simp [registerComplete, if_neg hkey, habsent]

/-- A `login/complete` call on an absent key reports the invalid-challenge
error. -/
theorem loginComplete_notFound {secret origin : String} {s : AuthState}
    {credential : ClientCredential} {challengeKey : String} {now : Nat}
    (habsent : s.challenges challengeKey = none) (hkey : challengeKey ≠ "") :
    (loginComplete secret origin s (some credential) challengeKey now).1 =
      .invalidChallenge := by
  simp [loginComplete, if_neg hkey, habsent]

/-- C2: once a `complete` call (registration or authentication) finds the
stored challenge, the entry is removed whatever the outcome, so any second
`complete` call of either kind with the same key fails with the
"Invalid or expired challenge" (not-found) error. -/
theorem c2_challenge_single_use (secret origin : String) (s : AuthState)
    (credential : ClientCredential) (challengeKey : String) (now : Nat)
    (cd : ChallengeData)
    (hfound : s.challenges challengeKey = some cd) (hkey : challengeKey ≠ "") :
    (((registerComplete origin s (some credential) challengeKey now).2).challenges
        challengeKey = none ∧
      ∀ credential₂ now₂,
        (registerComplete origin
          (registerComplete origin s (some credential) challengeKey now).2
          (some credential₂) challengeKey now₂).1 = .invalidChallenge ∧
        (loginComplete secret origin
          (registerComplete origin s (some credential) challengeKey now).2
          (some credential₂) challengeKey now₂).1 = .invalidChallenge) ∧
    (((loginComplete secret origin s (some credential) challengeKey now).2).challenges
        challengeKey = none ∧
      ∀ credential₂ now₂,
        (registerComplete origin
          (loginComplete secret origin s (some credential) challengeKey now).2
          (some credential₂) challengeKey now₂).1 = .invalidChallenge ∧
        (loginComplete secret origin
          (loginComplete secret origin s (some credential) challengeKey now).2
          (some credential₂) challengeKey now₂).1 = .invalidChallenge) := by
  have hr := @registerComplete_consumes origin s credential challengeKey now cd
    hfound hkey
  have hl := @loginComplete_consumes secret origin s credential challengeKey now cd
    hfound hkey
  exact ⟨⟨hr, fun c₂ n₂ => ⟨registerComplete_notFound hr hkey,
            loginComplete_notFound hr hkey⟩⟩,
         ⟨hl, fun c₂ n₂ => ⟨registerComplete_notFound hl hkey,
            loginComplete_notFound hl hkey⟩⟩⟩

/-- An auth-router state holding one pending (unexpired-at-500) challenge. -/
def pendingChallengeState : AuthState :=
  { challenges := fun k =>
      if k = "k1" then some ⟨"ch", "a@x.com", some "Alice", 1000⟩ else none
    creds := fun _ => none }

theorem c2_challenge_single_use_witness :
    (((registerComplete "http://localhost:3000" pendingChallengeState
        (some ⟨"id1", none⟩) "k1" 500).2).challenges "k1" = none ∧
      ∀ credential₂ now₂,
        (registerComplete "http://localhost:3000"
          (registerComplete "http://localhost:3000" pendingChallengeState
            (some ⟨"id1", none⟩) "k1" 500).2
          (some credential₂) "k1" now₂).1 = .invalidChallenge ∧
        (loginComplete "sec" "http://localhost:3000"
          (registerComplete "http://localhost:3000" pendingChallengeState
            (some ⟨"id1", none⟩) "k1" 500).2
          (some credential₂) "k1" now₂).1 = .invalidChallenge) ∧
    (((loginComplete "sec" "http://localhost:3000" pendingChallengeState
        (some ⟨"id1", none⟩) "k1" 500).2).challenges "k1" = none ∧
      ∀ credential₂ now₂,
        (registerComplete "http://localhost:3000"
          (loginComplete "sec" "http://localhost:3000" pendingChallengeState
            (some ⟨"id1", none⟩) "k1" 500).2
          (some credential₂) "k1" now₂).1 = .invalidChallenge ∧
        (loginComplete "sec" "http://localhost:3000"
          (loginComplete "sec" "http://localhost:3000" pendingChallengeState
            (some ⟨"id1", none⟩) "k1" 500).2
          (some credential₂) "k1" now₂).1 = .invalidChallenge) :=
  c2_challenge_single_use "sec" "http://localhost:3000" pendingChallengeState
    ⟨"id1", none⟩ "k1" 500 ⟨"ch", "a@x.com", some "Alice", 1000⟩ rfl (by decide)

/-- C6: a challenge found but already past its expiry makes either `complete`
call fail with the "Challenge expired" error — whatever the accompanying
credential response — and the entry is deleted as a side effect. -/
theorem c6_expired_challenge (secret origin : String) (s : AuthState)
    (credential : ClientCredential) (challengeKey : String) (now : Nat)
    (cd : ChallengeData)
    (hfound : s.challenges challengeKey = some cd) (hkey : challengeKey ≠ "")
    (hexp : cd.expires < now) :
    registerComplete origin s (some credential) challengeKey now =
      (.challengeExpired,
       { s with challenges := deleteChallenge s.challenges challengeKey }) ∧
    loginComplete secret origin s (some credential) challengeKey now =
      (.challengeExpired,
       { s with challenges := deleteChallenge s.challenges challengeKey }) := by
  constructor
  · simp only [registerComplete, if_neg hkey, hfound, if_pos hexp]
  · simp only [loginComplete, if_neg hkey, hfound, if_pos hexp]

theorem c6_expired_challenge_witness :
    registerComplete "http://localhost:3000" pendingChallengeState
      (some ⟨"id1", none⟩) "k1" 2000 =
      (.challengeExpired,
       { pendingChallengeState with
           challenges := deleteChallenge pendingChallengeState.challenges "k1" }) ∧
    loginComplete "sec" "http://localhost:3000" pendingChallengeState
      (some ⟨"id1", none⟩) "k1" 2000 =
      (.challengeExpired,
       { pendingChallengeState with
           challenges := deleteChallenge pendingChallengeState.challenges "k1" }) :=
  c6_expired_challenge "sec" "http://localhost:3000" pendingChallengeState
    ⟨"id1", none⟩ "k1" 2000 ⟨"ch", "a@x.com", some "Alice", 1000⟩ rfl (by decide)
    (by decide)

/-- A successful `verifyAuthenticationCredential` always reports
`storedCredential.counter + 1`, whatever the client sent. -/
theorem verifyAuth_ok_counter {origin : String} {credential : ClientCredential}
    {expectedChallenge : String} {stored : StoredCredential} {n : Nat}
    (h : verifyAuthenticationCredential origin credential expectedChallenge stored =
      .ok n) : n = stored.counter + 1 := by
  unfold verifyAuthenticationCredential at h
  split at h
  · exact absurd h (by simp)
  split at h
  · exact absurd h (by simp)
  split at h
  · exact absurd h (by simp)
  split at h
  · exact absurd h (by simp)
  split at h
  · exact absurd h (by simp)
  injection h with h
  exact h.symm

/-- C3: on every successful `login/complete`, the stored counter for the
challenge's email becomes exactly the old stored counter plus one — for every
client credential response, so no client-asserted value enters — and for every
email the stored counter never decreases across the call. -/
theorem c3_counter_increment (secret origin : String) (s : AuthState)
    (credential? : Option ClientCredential) (challengeKey : String) (now : Nat) :
    (∀ cd stored tok,
      s.challenges challengeKey = some cd →
      s.creds cd.email = some stored →
      (loginComplete secret origin s credential? challengeKey now).1 =
        .authenticated tok →
      ((loginComplete secret origin s credential? challengeKey now).2).creds cd.email =
        some { stored with counter := stored.counter + 1 }) ∧
    (∀ e old, s.creds e = some old →
      ∃ new, ((loginComplete secret origin s credential? challengeKey now).2).creds e =
          some new ∧ old.counter ≤ new.counter) := by
  cases credential? with
  | none =>
    constructor
    · intro cd stored tok _ _ h1
      simp [loginComplete] at h1
    · intro e old h
      exact ⟨old, by simpa [loginComplete] using h, Nat.le_refl _⟩
  | some credential =>
    by_cases hkey : challengeKey = ""
    · constructor
      · intro cd stored tok _ _ h1
        simp [loginComplete, hkey] at h1
      · intro e old h
        exact ⟨old, by simpa [loginComplete, hkey] using h, Nat.le_refl _⟩
    · cases hch : s.challenges challengeKey with
      | none =>
        constructor
        · intro cd stored tok hcd _ h1
          exact absurd hcd (by simp)
        · intro e old h
          exact ⟨old, by simpa [loginComplete, hkey, hch] using h, Nat.le_refl _⟩
      | some cd₀ =>
        by_cases hexp : cd₀.expires < now
        · constructor
          · intro cd stored tok _ _ h1
            simp [loginComplete, hkey, hch, hexp] at h1
          · intro e old h
            exact ⟨old, by simpa [loginComplete, hkey, hch, hexp] using h, Nat.le_refl _⟩
        · cases hcred : s.creds cd₀.email with
          | none =>
            constructor
            · intro cd stored tok hcd hst h1
              injection hcd with hcd
              subst hcd
              rw [hcred] at hst
              exact absurd hst (by simp)
            · intro e old h
              exact ⟨old, by simpa [loginComplete, hkey, hch, hexp, hcred] using h,
                Nat.le_refl _⟩
          | some stored₀ =>
            cases hv : verifyAuthenticationCredential origin credential
                cd₀.challenge stored₀ with
            | error msg =>
              constructor
              · intro cd stored tok _ _ h1
                simp [loginComplete, hkey, hch, hexp, hcred, hv] at h1
              · intro e old h
                exact ⟨old, by simpa [loginComplete, hkey, hch, hexp, hcred, hv] using h,
                  Nat.le_refl _⟩
            | ok n =>
              have hn : n = stored₀.counter + 1 := verifyAuth_ok_counter hv
              constructor
              · intro cd stored tok hcd hst h1
                injection hcd with hcd
                subst hcd
                rw [hcred] at hst
                injection hst with hst
                subst hst
                simp only [loginComplete, if_neg hkey, hch, if_neg hexp, hcred, hv]
                simp [setCred, hn]
              · intro e old h
                by_cases he : e = cd₀.email
                · subst he
                  rw [hcred] at h
                  injection h with h
                  subst h
                  refine ⟨{ stored₀ with counter := n }, ?_, ?_⟩
                  · simp only [loginComplete, if_neg hkey, hch, if_neg hexp, hcred, hv]
                    simp [setCred]
                  · simp [hn]
                · refine ⟨old, ?_, Nat.le_refl _⟩
                  simp only [loginComplete, if_neg hkey, hch, if_neg hexp, hcred, hv]
                  simpa [setCred, he] using h

/-- An auth-router state holding a pending login challenge for `a@x.com` and a
stored credential with counter 5. -/
def c3State : AuthState :=
  { challenges := fun k =>
      if k = "k1" then some ⟨"ch", "a@x.com", none, 1000⟩ else none
    creds := fun e =>
      if e = "a@x.com" then some ⟨"cid", "pk", 5, "a@x.com", "Alice", 0⟩ else none }

/-- A client response matching the pending challenge; its `assertedCounter`
of 99 is ignored by the server. -/
def c3Credential : ClientCredential :=
  ⟨"cid", some ⟨⟨"ch", "o"⟩, "att", 99⟩⟩

theorem c3_counter_increment_witness :
    ((loginComplete "sec" "o" c3State (some c3Credential) "k1" 500).2).creds
        "a@x.com" = some ⟨"cid", "pk", 6, "a@x.com", "Alice", 0⟩ ∧
    (∃ new, ((loginComplete "sec" "o" c3State (some c3Credential) "k1" 500).2).creds
        "a@x.com" = some new ∧ 5 ≤ new.counter) :=
  ⟨(c3_counter_increment "sec" "o" c3State (some c3Credential) "k1" 500).1
      ⟨"ch", "a@x.com", none, 1000⟩ ⟨"cid", "pk", 5, "a@x.com", "Alice", 0⟩
      (jwtSign "sec" ⟨"a@x.com", "Alice", 500, "webauthn"⟩ 500) rfl rfl rfl,
   (c3_counter_increment "sec" "o" c3State (some c3Credential) "k1" 500).2
      "a@x.com" ⟨"cid", "pk", 5, "a@x.com", "Alice", 0⟩ rfl⟩

/-- C7: a token from `jwtSign` is accepted by `jwtVerify` — returning the
embedded claims — at every verification time strictly before issuance plus 24
hours, is rejected as expired from that moment on, and any token whose
signature was not produced over its own payload with the configured secret is
rejected as invalid. -/
theorem c7_session_token_verify (secret : String) (claims : SessionClaims)
    (now : Nat) :
    (∀ t, t < now + sessionTTL →
      jwtVerify secret (jwtSign secret claims now) t = .valid claims) ∧
    (∀ t, now + sessionTTL ≤ t →
      jwtVerify secret (jwtSign secret claims now) t = .expired) ∧
    (∀ tok : SessionToken, ∀ t,
      tok.sig ≠ ⟨secret, tok.claims, tok.exp⟩ →
      jwtVerify secret tok t = .invalidToken) := by
  refine ⟨fun t ht => ?_, fun t ht => ?_, fun tok t hsig => ?_⟩
  · unfold jwtVerify jwtSign
    dsimp only
    rw [if_neg (by simp), if_neg (by omega)]
  · unfold jwtVerify jwtSign
    dsimp only
    rw [if_neg (by simp), if_pos (by omega)]
  · unfold jwtVerify
    rw [if_pos hsig]

theorem c7_session_token_verify_witness :
    jwtVerify "sec" (jwtSign "sec" ⟨"a@x.com", "Alice", 1000, "webauthn"⟩ 1000)
      86400999 = .valid ⟨"a@x.com", "Alice", 1000, "webauthn"⟩ ∧
    jwtVerify "sec" (jwtSign "sec" ⟨"a@x.com", "Alice", 1000, "webauthn"⟩ 1000)
      86401000 = .expired ∧
    jwtVerify "sec"
      ⟨⟨"a@x.com", "Alice", 1000, "webauthn"⟩, 86401000,
        ⟨"other", ⟨"a@x.com", "Alice", 1000, "webauthn"⟩, 86401000⟩⟩ 2000 =
      .invalidToken :=
  ⟨(c7_session_token_verify "sec" ⟨"a@x.com", "Alice", 1000, "webauthn"⟩ 1000).1
      86400999 (by decide),
   (c7_session_token_verify "sec" ⟨"a@x.com", "Alice", 1000, "webauthn"⟩ 1000).2.1
      86401000 (by decide),
   (c7_session_token_verify "sec" ⟨"a@x.com", "Alice", 1000, "webauthn"⟩ 1000).2.2
      ⟨⟨"a@x.com", "Alice", 1000, "webauthn"⟩, 86401000,
        ⟨"other", ⟨"a@x.com", "Alice", 1000, "webauthn"⟩, 86401000⟩⟩ 2000
      (by simp)⟩

/-- C9 counterexample: two `register/begin` calls for the same email in the
same millisecond generate the identical challenge key
(``challenge_${email}_${Date.now()}``), and the second
`challenges.set` overwrites the first, still-pending entry (both expire at
301000, far after the shared timestamp 1000). -/
theorem c9_duplicate_key_overwrites :
    (registerBegin initialAuthState "a@x.com" "Alice" "c1" 1000).1 =
      .issued "challenge_a@x.com_1000" "c1" ∧
    ((registerBegin initialAuthState "a@x.com" "Alice" "c1" 1000).2).challenges
        "challenge_a@x.com_1000" = some ⟨"c1", "a@x.com", some "Alice", 301000⟩ ∧
    (registerBegin (registerBegin initialAuthState "a@x.com" "Alice" "c1" 1000).2
        "a@x.com" "Alice" "c2" 1000).1 = .issued "challenge_a@x.com_1000" "c2" ∧
    ((registerBegin (registerBegin initialAuthState "a@x.com" "Alice" "c1" 1000).2
        "a@x.com" "Alice" "c2" 1000).2).challenges "challenge_a@x.com_1000" =
      some ⟨"c2", "a@x.com", some "Alice", 301000⟩ := by
  refine ⟨rfl, rfl, rfl, rfl⟩

/-- The decimal digit string of `n`, most significant first: the pure
recursion that `Nat.toDigitsCore` computes with fuel. -/
def digitsOf (n : Nat) : List Char :=
  if _ : n < 10 then [Nat.digitChar n]
  else digitsOf (n / 10) ++ [Nat.digitChar (n % 10)]
termination_by n
decreasing_by
  exact Nat.div_lt_self (by omega) (by omega)

theorem toDigitsCore_eq_digitsOf :
    ∀ (f n : Nat) (ds : List Char), n < f →
      Nat.toDigitsCore 10 f n ds = digitsOf n ++ ds := by
  intro f
  induction f with
  | zero =>
    intro n ds h
    omega
  | succ f ih =>
    intro n ds h
    by_cases h10 : n / 10 = 0
    · have hn : n < 10 := by omega
      rw [digitsOf, dif_pos hn]
      simp only [Nat.toDigitsCore, h10, if_true]
      rw [Nat.mod_eq_of_lt hn]
      rfl
    · have hn : ¬ n < 10 := by omega
      rw [digitsOf, dif_neg hn]
      simp only [Nat.toDigitsCore, h10, if_false]
      rw [ih (n / 10) _ (by omega)]
      simp [List.append_assoc]

theorem natRepr_data (n : Nat) : (Nat.repr n).data = digitsOf n := by
  show ((Nat.toDigits 10 n).asString).data = digitsOf n
  rw [Nat.toDigits, toDigitsCore_eq_digitsOf (n + 1) n [] (Nat.lt_succ_self n)]
  simp [List.asString]

def digitVal (c : Char) : Nat := c.toNat - 48

def decValue (l : List Char) : Nat := l.foldl (fun a c => a * 10 + digitVal c) 0

theorem digitVal_digitChar : ∀ n < 10, digitVal (Nat.digitChar n) = n := by decide

theorem digitChar_ne_underscore : ∀ n < 10, Nat.digitChar n ≠ '_' := by decide

theorem decValue_append (l : List Char) (c : Char) :
    decValue (l ++ [c]) = decValue l * 10 + digitVal c := by
  simp [decValue, List.foldl_append]

theorem decValue_digitsOf (n : Nat) : decValue (digitsOf n) = n := by
  induction n using Nat.strong_induction_on with
  | _ n ih =>
    by_cases h : n < 10
    · rw [digitsOf, dif_pos h]
      show 0 * 10 + digitVal (Nat.digitChar n) = n
      rw [digitVal_digitChar n h]
      omega
    · rw [digitsOf, dif_neg h]
      rw [decValue_append]
      rw [ih (n / 10) (Nat.div_lt_self (by omega) (by omega))]
      rw [digitVal_digitChar (n % 10) (Nat.mod_lt n (by omega))]
      omega

theorem digitsOf_ne_underscore (n : Nat) : ∀ c ∈ digitsOf n, c ≠ '_' := by
  induction n using Nat.strong_induction_on with
  | _ n ih =>
    by_cases h : n < 10
    · rw [digitsOf, dif_pos h]
      intro c hc
      rw [List.mem_singleton] at hc
      subst hc
      exact digitChar_ne_underscore n h
    · rw [digitsOf, dif_neg h]
      intro c hc
      rw [List.mem_append] at hc
      rcases hc with hc | hc
      · exact ih (n / 10) (Nat.div_lt_self (by omega) (by omega)) c hc
      · rw [List.mem_singleton] at hc
        subst hc
        exact digitChar_ne_underscore (n % 10) (Nat.mod_lt n (by omega))

/-- Splitting a list at its first marker character is unambiguous. -/
theorem splitAtMark :
    ∀ (u₁ : List Char) {v₁ : List Char} (u₂ : List Char) {v₂ : List Char},
      (∀ c ∈ u₁, c ≠ '_') → (∀ c ∈ u₂, c ≠ '_') →
      u₁ ++ '_' :: v₁ = u₂ ++ '_' :: v₂ → u₁ = u₂ ∧ v₁ = v₂ := by
  intro u₁
  induction u₁ with
  | nil =>
    intro v₁ u₂ v₂ _ h₂ h
    cases u₂ with
    | nil =>
      simp only [List.nil_append, List.cons.injEq] at h
      exact ⟨rfl, h.2⟩
    | cons c u₂' =>
      simp only [List.nil_append, List.cons_append, List.cons.injEq] at h
      exact absurd h.1.symm (h₂ c (by simp))
  | cons c u₁' ih =>
    intro v₁ u₂ v₂ h₁ h₂ h
    cases u₂ with
    | nil =>
      simp only [List.nil_append, List.cons_append, List.cons.injEq] at h
      exact absurd h.1 (h₁ c (by simp))
    | cons d u₂' =>
      simp only [List.cons_append, List.cons.injEq] at h
      obtain ⟨hcd, h'⟩ := h
      obtain ⟨hu, hv⟩ := ih u₂' (fun x hx => h₁ x (by simp [hx]))
        (fun x hx => h₂ x (by simp [hx])) h'
      exact ⟨by rw [hcd, hu], hv⟩

/-- Splitting a list at its last marker character is unambiguous. -/
theorem splitAtLastMark {e₁ e₂ r₁ r₂ : List Char}
    (h₁ : ∀ c ∈ r₁, c ≠ '_') (h₂ : ∀ c ∈ r₂, c ≠ '_')
    (h : e₁ ++ '_' :: r₁ = e₂ ++ '_' :: r₂) : e₁ = e₂ ∧ r₁ = r₂ := by
  have hrev : r₁.reverse ++ '_' :: e₁.reverse = r₂.reverse ++ '_' :: e₂.reverse := by
    have h' := congrArg List.reverse h
    simpa [List.reverse_append, List.append_assoc] using h'
  obtain ⟨hu, hv⟩ := splitAtMark r₁.reverse r₂.reverse
    (fun c hc => h₁ c (List.mem_reverse.mp hc))
    (fun c hc => h₂ c (List.mem_reverse.mp hc)) hrev
  exact ⟨List.reverse_injective hv, List.reverse_injective hu⟩

/-- The `prefix_email_timestamp` encoding of challenge keys is injective in
the email and the timestamp, because the decimal timestamp after the last
underscore contains no underscore. -/
theorem keyEncode_inj {pre : List Char} {e₁ e₂ : String} {t₁ t₂ : Nat}
    (h : pre ++ (e₁.data ++ '_' :: (Nat.repr t₁).data) =
         pre ++ (e₂.data ++ '_' :: (Nat.repr t₂).data)) : e₁ = e₂ ∧ t₁ = t₂ := by
  have h' := List.append_cancel_left h
  have hr₁ : ∀ c ∈ (Nat.repr t₁).data, c ≠ '_' := by
    rw [natRepr_data]
    exact digitsOf_ne_underscore t₁
  have hr₂ : ∀ c ∈ (Nat.repr t₂).data, c ≠ '_' := by
    rw [natRepr_data]
    exact digitsOf_ne_underscore t₂
  obtain ⟨he, hr⟩ := splitAtLastMark hr₁ hr₂ h'
  refine ⟨String.ext he, ?_⟩
  have hd : digitsOf t₁ = digitsOf t₂ := by
    rw [← natRepr_data, ← natRepr_data, hr]
  have hv := congrArg decValue hd
  rwa [decValue_digitsOf, decValue_digitsOf] at hv

theorem regChallengeKey_data (e : String) (t : Nat) :
    (regChallengeKey e t).data =
      "challenge_".data ++ (e.data ++ '_' :: (Nat.repr t).data) := by
  simp only [regChallengeKey, String.data_append, List.append_assoc]
  rfl

theorem authChallengeKey_data (e : String) (t : Nat) :
    (authChallengeKey e t).data =
      "auth_challenge_".data ++ (e.data ++ '_' :: (Nat.repr t).data) := by
  simp only [authChallengeKey, String.data_append, List.append_assoc]
  rfl

/-- C9 (amended): challenge keys embed the ceremony kind, the email and the
millisecond timestamp; keys of different kinds never coincide, and keys of the
same kind coincide exactly when both the email and the timestamp coincide —
so two begin calls of the same kind for the same email in the same millisecond
mint the identical key, and storing under it overwrites the pending entry. -/
theorem c9_key_uniqueness_amended :
    (∀ e₁ t₁ e₂ t₂, regChallengeKey e₁ t₁ = regChallengeKey e₂ t₂ ↔
      e₁ = e₂ ∧ t₁ = t₂) ∧
    (∀ e₁ t₁ e₂ t₂, authChallengeKey e₁ t₁ = authChallengeKey e₂ t₂ ↔
      e₁ = e₂ ∧ t₁ = t₂) ∧
    (∀ e₁ t₁ e₂ t₂, regChallengeKey e₁ t₁ ≠ authChallengeKey e₂ t₂) ∧
    (∀ m k v, setChallenge m k v k = some v) := by
  refine ⟨fun e₁ t₁ e₂ t₂ => ?_, fun e₁ t₁ e₂ t₂ => ?_,
    fun e₁ t₁ e₂ t₂ h => ?_, fun m k v => ?_⟩
  · constructor
    · intro h
      have hd := congrArg String.data h
      rw [regChallengeKey_data, regChallengeKey_data] at hd
      exact keyEncode_inj hd
    · rintro ⟨rfl, rfl⟩
      rfl
  · constructor
    · intro h
      have hd := congrArg String.data h
      rw [authChallengeKey_data, authChallengeKey_data] at hd
      exact keyEncode_inj hd
    · rintro ⟨rfl, rfl⟩
      rfl
  · have hd := congrArg String.data h
    rw [regChallengeKey_data, authChallengeKey_data] at hd
    have hc : "challenge_".data = 'c' :: "hallenge_".data := rfl
    have ha : "auth_challenge_".data = 'a' :: "uth_challenge_".data := rfl
    rw [hc, ha] at hd
    simp at hd
  · simp [setChallenge]

theorem c9_key_uniqueness_amended_witness :
    regChallengeKey "a@x.com" 1000 ≠ regChallengeKey "a@x.com" 1001 ∧
    regChallengeKey "a@x.com" 1000 ≠ authChallengeKey "a@x.com" 1000 :=
  ⟨fun h => absurd
      ((c9_key_uniqueness_amended.1 "a@x.com" 1000 "a@x.com" 1001).mp h).2
      (by decide),
   c9_key_uniqueness_amended.2.2.1 "a@x.com" 1000 "a@x.com" 1000⟩

/-! ## base64url codec (`webauthn-utils.js`)

`bufferToBase64URL` is `buffer.toString('base64')` followed by the three
replacements `+ → -`, `/ → _`, `= → (removed)`; `base64URLToBuffer` maps the
characters back, re-derives the padding from the string length, and decodes
standard base64.  Buffers are byte lists. -/

/-- The RFC 4648 base64 alphabet. -/
def b64Alphabet : List Char :=
  "ABCDEFGHIJKLMNOPQRSTUVWXYZabcdefghijklmnopqrstuvwxyz0123456789+/".data

/-- The alphabet character of a sextet. -/
def b64Char (n : Nat) : Char := b64Alphabet.getD n 'A'

/-- The sextet of an alphabet character. -/
def b64Index (c : Char) : Nat := b64Alphabet.indexOf c

/-- Standard padded base64 encoding, as `Buffer.prototype.toString('base64')`:
three bytes become four characters; one trailing byte becomes two characters
and `==`; two trailing bytes become three characters and `=`. -/
def base64Encode : List Nat → List Char
  | [] => []
  | [a] => [b64Char (a / 4), b64Char (a % 4 * 16), '=', '=']
  | [a, b] => [b64Char (a / 4), b64Char (a % 4 * 16 + b / 16), b64Char (b % 16 * 4), '=']
  | a :: b :: c :: rest =>
    b64Char (a / 4) :: b64Char (a % 4 * 16 + b / 16) ::
      b64Char (b % 16 * 4 + c / 64) :: b64Char (c % 64) :: base64Encode rest

/-- Standard base64 decoding of a padded string, as `Buffer.from(s, 'base64')`
behaves on well-formed input: each four characters yield three bytes, a final
`xx==` group one byte, a final `xxx=` group two bytes. -/
def base64Decode : List Char → List Nat
  | c₁ :: c₂ :: c₃ :: c₄ :: rest =>
    if c₃ = '=' then [b64Index c₁ * 4 + b64Index c₂ / 16]
    else if c₄ = '=' then
      [b64Index c₁ * 4 + b64Index c₂ / 16, b64Index c₂ % 16 * 16 + b64Index c₃ / 4]
    else
      (b64Index c₁ * 4 + b64Index c₂ / 16) ::
        (b64Index c₂ % 16 * 16 + b64Index c₃ / 4) ::
        (b64Index c₃ % 4 * 64 + b64Index c₄) :: base64Decode rest
  | _ => []

/-- The global replacement of `+` by `-` in `bufferToBase64URL`. -/
def toUrl1 (c : Char) : Char := if c = '+' then '-' else c

/-- The global replacement of `/` by `_` in `bufferToBase64URL`. -/
def toUrl2 (c : Char) : Char := if c = '/' then '_' else c

/-- The global replacement of `-` by `+` in `base64URLToBuffer`. -/
def fromUrl1 (c : Char) : Char := if c = '-' then '+' else c

/-- The global replacement of `_` by `/` in `base64URLToBuffer`. -/
def fromUrl2 (c : Char) : Char := if c = '_' then '/' else c

/-- `bufferToBase64URL` from `webauthn-utils.js`. -/
def bufferToBase64URL (buffer : List Nat) : List Char :=
  (((base64Encode buffer).map toUrl1).map toUrl2).filter (fun c => c != '=')

/-- `base64URLToBuffer` from `webauthn-utils.js`: swap the url-safe characters
back, re-pad with `'='.repeat((4 - base64.length % 4) % 4)`, decode. -/
def base64URLToBuffer (base64url : List Char) : List Nat :=
  let base64 := (base64url.map fromUrl1).map fromUrl2
  let padded := base64 ++ List.replicate ((4 - base64.length % 4) % 4) '='
  base64Decode padded

theorem b64CharFacts : ∀ s < 64,
    b64Index (b64Char s) = s ∧
    b64Char s ≠ '=' ∧
    toUrl2 (toUrl1 (b64Char s)) ≠ '=' ∧
    fromUrl2 (fromUrl1 (toUrl2 (toUrl1 (b64Char s)))) = b64Char s := by decide

theorem chunk3_induction {P : List Nat → Prop} (h0 : P []) (h1 : ∀ a, P [a])
    (h2 : ∀ a b, P [a, b])
    (h3 : ∀ a b c rest, P rest → P (a :: b :: c :: rest)) :
    ∀ l, P l := by
  have hlen : ∀ n l, List.length l ≤ n → P l := by
    intro n
    induction n with
    | zero =>
      intro l hl
      cases l with
      | nil => exact h0
      | cons a l' => simp at hl
    | succ n ih =>
      intro l hl
      match l with
      | [] => exact h0
      | [a] => exact h1 a
      | [a, b] => exact h2 a b
      | a :: b :: c :: rest =>
        refine h3 a b c rest (ih rest ?_)
        simp only [List.length_cons] at hl
        omega
  intro l
  exact hlen l.length l (Nat.le_refl _)

theorem filter_ne_cons {x : Char} {xs : List Char} (hx : x ≠ '=') :
    (x :: xs).filter (fun c => c != '=') = x :: xs.filter (fun c => c != '=') := by
  simp [List.filter_cons, hx]

theorem filter_pad_cons (xs : List Char) :
    ('=' :: xs).filter (fun c => c != '=') = xs.filter (fun c => c != '=') := by
  simp [List.filter_cons]

/-- C10: `base64URLToBuffer` is a left inverse of `bufferToBase64URL` on byte
buffers: stripping the padding and url-swapping the alphabet is undone by the
length-derived re-padding and the reverse swaps. -/
theorem c10_base64url_roundtrip (b : List Nat) (hb : ∀ x ∈ b, x < 256) :
    base64URLToBuffer (bufferToBase64URL b) = b := by
  revert hb
  induction b using chunk3_induction with
  | h0 =>
    intro _
    rfl
  | h1 a =>
    intro hb
    have ha : a < 256 := hb a (by simp)
    have hs₁ : a / 4 < 64 := by omega
    have hs₂ : a % 4 * 16 < 64 := by omega
    obtain ⟨hidx₁, hq₁, hne₁, hrt₁⟩ := b64CharFacts _ hs₁
    obtain ⟨hidx₂, hq₂, hne₂, hrt₂⟩ := b64CharFacts _ hs₂
    have hstrip : bufferToBase64URL [a] =
        [toUrl2 (toUrl1 (b64Char (a / 4))), toUrl2 (toUrl1 (b64Char (a % 4 * 16)))] := by
      simp only [bufferToBase64URL, base64Encode, List.map_cons, List.map_nil]
      rw [show toUrl2 (toUrl1 '=') = '=' from rfl]
      rw [filter_ne_cons hne₁, filter_ne_cons hne₂, filter_pad_cons, filter_pad_cons,
          List.filter_nil]
    rw [hstrip]
    simp only [base64URLToBuffer, List.map_cons, List.map_nil, hrt₁, hrt₂,
      List.length_cons, List.length_nil]
    rw [show (4 - (0 + 1 + 1) % 4) % 4 = 2 from rfl]
    rw [show List.replicate 2 '=' = ['=', '='] from rfl]
    rw [show ([b64Char (a / 4), b64Char (a % 4 * 16)] ++ ['=', '='] : List Char) =
        [b64Char (a / 4), b64Char (a % 4 * 16), '=', '='] from rfl]
    simp only [base64Decode]
    rw [if_pos trivial, hidx₁, hidx₂]
    simp only [List.cons.injEq, and_true]
    omega
  | h2 a b =>
    intro hb
    have ha : a < 256 := hb a (by simp)
    have hbb : b < 256 := hb b (by simp)
    have hs₁ : a / 4 < 64 := by omega
    have hs₂ : a % 4 * 16 + b / 16 < 64 := by omega
    have hs₃ : b % 16 * 4 < 64 := by omega
    obtain ⟨hidx₁, hq₁, hne₁, hrt₁⟩ := b64CharFacts _ hs₁
    obtain ⟨hidx₂, hq₂, hne₂, hrt₂⟩ := b64CharFacts _ hs₂
    obtain ⟨hidx₃, hq₃, hne₃, hrt₃⟩ := b64CharFacts _ hs₃
    have hstrip : bufferToBase64URL [a, b] =
        [toUrl2 (toUrl1 (b64Char (a / 4))), toUrl2 (toUrl1 (b64Char (a % 4 * 16 + b / 16))),
         toUrl2 (toUrl1 (b64Char (b % 16 * 4)))] := by
      simp only [bufferToBase64URL, base64Encode, List.map_cons, List.map_nil]
      rw [show toUrl2 (toUrl1 '=') = '=' from rfl]
      rw [filter_ne_cons hne₁, filter_ne_cons hne₂, filter_ne_cons hne₃, filter_pad_cons,
          List.filter_nil]
    rw [hstrip]
    simp only [base64URLToBuffer, List.map_cons, List.map_nil, hrt₁, hrt₂, hrt₃,
      List.length_cons, List.length_nil]
    rw [show (4 - (0 + 1 + 1 + 1) % 4) % 4 = 1 from rfl]
    rw [show List.replicate 1 '=' = ['='] from rfl]
    rw [show ([b64Char (a / 4), b64Char (a % 4 * 16 + b / 16), b64Char (b % 16 * 4)] ++
        ['='] : List Char) =
        [b64Char (a / 4), b64Char (a % 4 * 16 + b / 16), b64Char (b % 16 * 4), '='] from rfl]
    simp only [base64Decode]
    rw [if_neg hq₃, if_pos trivial, hidx₁, hidx₂, hidx₃]
    simp only [List.cons.injEq, and_true]
    refine ⟨by omega, by omega⟩
  | h3 a b c rest ih =>
    intro hb
    have ha : a < 256 := hb a (by simp)
    have hbb : b < 256 := hb b (by simp)
    have hcc : c < 256 := hb c (by simp)
    have ih' := ih (fun x hx => hb x (by simp [hx]))
    have hs₁ : a / 4 < 64 := by omega
    have hs₂ : a % 4 * 16 + b / 16 < 64 := by omega
    have hs₃ : b % 16 * 4 + c / 64 < 64 := by omega
    have hs₄ : c % 64 < 64 := by omega
    obtain ⟨hidx₁, hq₁, hne₁, hrt₁⟩ := b64CharFacts _ hs₁
    obtain ⟨hidx₂, hq₂, hne₂, hrt₂⟩ := b64CharFacts _ hs₂
    obtain ⟨hidx₃, hq₃, hne₃, hrt₃⟩ := b64CharFacts _ hs₃
    obtain ⟨hidx₄, hq₄, hne₄, hrt₄⟩ := b64CharFacts _ hs₄
    have hstrip : bufferToBase64URL (a :: b :: c :: rest) =
        toUrl2 (toUrl1 (b64Char (a / 4))) ::
        toUrl2 (toUrl1 (b64Char (a % 4 * 16 + b / 16))) ::
        toUrl2 (toUrl1 (b64Char (b % 16 * 4 + c / 64))) ::
        toUrl2 (toUrl1 (b64Char (c % 64))) :: bufferToBase64URL rest := by
      simp only [bufferToBase64URL, base64Encode, List.map_cons]
      rw [filter_ne_cons hne₁, filter_ne_cons hne₂, filter_ne_cons hne₃,
          filter_ne_cons hne₄]
    rw [hstrip]
    simp only [base64URLToBuffer, List.map_cons, hrt₁, hrt₂, hrt₃, hrt₄,
      List.length_cons]
    rw [show (4 - ((((bufferToBase64URL rest).map fromUrl1).map fromUrl2).length
          + 1 + 1 + 1 + 1) % 4) % 4 =
        (4 - (((bufferToBase64URL rest).map fromUrl1).map fromUrl2).length % 4) % 4
      from by omega]
    rw [List.cons_append, List.cons_append, List.cons_append, List.cons_append]
    simp only [base64Decode]
    rw [if_neg hq₃, if_neg hq₄, hidx₁, hidx₂, hidx₃, hidx₄]
    rw [show base64Decode ((((bufferToBase64URL rest).map fromUrl1).map fromUrl2) ++
        List.replicate
          ((4 - (((bufferToBase64URL rest).map fromUrl1).map fromUrl2).length % 4) % 4)
          '=') = base64URLToBuffer (bufferToBase64URL rest) from rfl]
    rw [ih']
    simp only [List.cons.injEq, and_true]
    refine ⟨by omega, by omega, by omega⟩

theorem c10_base64url_roundtrip_witness :
    base64URLToBuffer (bufferToBase64URL [0, 255, 77, 1]) = [0, 255, 77, 1] :=
  c10_base64url_roundtrip [0, 255, 77, 1] (by decide)
